import Mathlib

/-
Verification development for the webhook-server-approval system.

The Python source is shallowly embedded:
  * Python dicts keyed by strings are modeled as association lists
    (List (String × _)) with insertion-order iteration, matching the
    semantics of Python 3.7+ dicts.
  * datetime values are modeled as integers counting seconds;
    timedelta(minutes=d) becomes 60 * d seconds.
  * Python scalar form values are modeled by PyVal (None, str, numbers);
    Python float arithmetic is modeled by exact rationals.
  * Exceptions that a function catches internally are modeled by the
    value the except-branch returns; fallible conversions return Option.
  * Log output (print calls) and the wording of user-facing messages are
    not modeled; alert text is outside the verified surface.
-/

/-! ## Generic dict helpers (Python dict as insertion-ordered assoc list) -/

/-- Python d.get(k): first binding of k, if any. -/
def dictGet {γ : Type} : List (String × γ) → String → Option γ
  | [], _ => Option.none
  | (k, v) :: rest, key => if k = key then some v else dictGet rest key

/-- Python d[k] = v: replace the binding in place, else append a new one. -/
def dictSet {γ : Type} : List (String × γ) → String → γ → List (String × γ)
  | [], key, v => [(key, v)]
  | (k, w) :: rest, key, v =>
    if k = key then (key, v) :: rest else (k, w) :: dictSet rest key v

/-- Python del d[k]: drop the binding of k. -/
def dictDel {γ : Type} : List (String × γ) → String → List (String × γ)
  | [], _ => []
  | (k, v) :: rest, key => if k = key then rest else (k, v) :: dictDel rest key

/-- Python pattern d.setdefault(k, []).append(x): append x to the list bound
to k, creating the binding at the end when absent. -/
def dictPush {γ : Type} : List (String × List γ) → String → γ → List (String × List γ)
  | [], key, x => [(key, [x])]
  | (k, xs) :: rest, key, x =>
    if k = key then (k, xs ++ [x]) :: rest else (k, xs) :: dictPush rest key x

/-! ## CacheService (src/app/core/infrastructure/cache_service.py)

A cache is a dict from string keys to timestamps (seconds). -/

abbrev CacheMap := List (String × ℤ)

/-- settings.QR_CACHE_DURATION_MINUTES (src/app/core/config/settings.py). -/
def QR_CACHE_DURATION_MINUTES : ℤ := 5

/-- node_id[:8] if len(node_id) > 8 else node_id. -/
def short_node_id (node_id : String) : String :=
  if node_id.length > 8 then String.mk (node_id.data.take 8) else node_id

/-- CacheService.generate_cache_key. -/
def generate_cache_key (instance_code node_id qr_type : String) : String :=
  instance_code ++ "_" ++ short_node_id node_id ++ "_" ++ qr_type

/-- CacheService.generate_validation_cache_key. -/
def generate_validation_cache_key (instance_code validation_type : String) : String :=
  "validation_" ++ instance_code ++ "_" ++ validation_type

/-- Shared body of the two seen-recently checks: look the key up in the
given cache dict at time now; absent gives false; a stale entry
(now - timestamp > 60 * duration_minutes) is deleted and gives false;
otherwise true. Returns the answer with the possibly changed cache. -/
def seen_recently (cache : CacheMap) (cache_key : String)
    (cache_duration_minutes : ℤ) (now : ℤ) : Bool × CacheMap :=
  match dictGet cache cache_key with
  | Option.none => (false, cache)
  | some generated_time =>
    if now - generated_time > 60 * cache_duration_minutes then
      (false, dictDel cache cache_key)
    else
      (true, cache)

/-- CacheService.is_qr_recently_generated (acts on qr_generation_cache). -/
def is_qr_recently_generated (qr_generation_cache : CacheMap)
    (instance_code node_id qr_type : String)
    (cache_duration_minutes : ℤ) (now : ℤ) : Bool × CacheMap :=
  seen_recently qr_generation_cache
    (generate_cache_key instance_code node_id qr_type) cache_duration_minutes now

/-- CacheService.is_validation_alert_recently_sent (acts on validation_alert_cache). -/
def is_validation_alert_recently_sent (validation_alert_cache : CacheMap)
    (instance_code validation_type : String)
    (cache_duration_minutes : ℤ) (now : ℤ) : Bool × CacheMap :=
  seen_recently validation_alert_cache
    (generate_validation_cache_key instance_code validation_type)
    cache_duration_minutes now

/-- CacheService.mark_qr_as_generated: write key -> now. -/
def mark_qr_as_generated (qr_generation_cache : CacheMap)
    (instance_code node_id qr_type : String) (now : ℤ) : CacheMap :=
  dictSet qr_generation_cache (generate_cache_key instance_code node_id qr_type) now

/-- CacheService.mark_validation_alert_as_sent: write key -> now. -/
def mark_validation_alert_as_sent (validation_alert_cache : CacheMap)
    (instance_code validation_type : String) (now : ℤ) : CacheMap :=
  dictSet validation_alert_cache
    (generate_validation_cache_key instance_code validation_type) now

/-! ## Form data model

A Lark form is a JSON list of field dicts with keys name, type, value.
A scalar value is None, a string, or a number (Python float modeled as ℚ).
A repeating group (type = "fieldList") holds a list of rows, each row a
list of scalar sub-field dicts. Python collapses a missing field and a
field whose value is None into the same value None; PyVal.none plays
that role here. -/

inductive PyVal : Type where
  | none : PyVal
  | str : String → PyVal
  | num : ℚ → PyVal
deriving DecidableEq, Repr

instance : Inhabited PyVal := ⟨PyVal.none⟩

structure SubField where
  name : String
  value : PyVal
deriving DecidableEq, Repr

/-- The value slot of a top-level field: a scalar, or the row list of a
repeating group. A non-list value on a group field falls into the scalar
case, which the extractor skips just as the isinstance checks do. -/
inductive FieldValue : Type where
  | scalar : PyVal → FieldValue
  | rows : List (List SubField) → FieldValue
deriving DecidableEq, Repr

structure FormField where
  name : String
  ftype : String
  value : FieldValue
deriving DecidableEq, Repr

/-! ## FieldExtractor (src/app/core/utils/field_extractor.py) -/

/-- Inner loop over the sub-fields of one row: first sub-field with the
wanted name, if any. -/
def searchRow (field_name : String) : List SubField → Option PyVal
  | [] => Option.none
  | sf :: rest =>
    if sf.name = field_name then some sf.value else searchRow field_name rest

/-- Loop over the rows of a fieldList value: first match across rows. -/
def searchRows (field_name : String) : List (List SubField) → Option PyVal
  | [] => Option.none
  | row :: rest =>
    match searchRow field_name row with
    | some v => some v
    | Option.none => searchRows field_name rest

/-- What one top-level field contributes to the search for field_name:
its own value when the name matches, else a match found inside its rows
when it is a fieldList. Mirrors one iteration of the main loop of
FieldExtractor.extract_field_value. -/
def fieldHit (field_name : String) (f : FormField) : Option FieldValue :=
  if f.name = field_name then some f.value
  else if f.ftype = "fieldList" then
    match f.value with
    | FieldValue.rows rs =>
      match searchRows field_name rs with
      | some v => some (FieldValue.scalar v)
      | Option.none => Option.none
    | FieldValue.scalar _ => Option.none
  else Option.none

/-- FieldExtractor.extract_field_value: single pass over the form in
document order; within each field the top-level name is tested first and
then, for a fieldList, every row. Returns None (here: scalar none) when
nothing matches, just as the Python function returns None. -/
def extract_field_value (form_data : List FormField) (field_name : String) : FieldValue :=
  match form_data with
  | [] => FieldValue.scalar PyVal.none
  | f :: rest =>
    match fieldHit field_name f with
    | some v => v
    | Option.none => extract_field_value rest field_name

/-- FieldExtractor.extract_field_from_fieldlist: first value of
target_field_name inside the first group named fieldlist_name. -/
def extract_field_from_fieldlist (form_data : List FormField)
    (fieldlist_name target_field_name : String) : PyVal :=
  match form_data with
  | [] => PyVal.none
  | f :: rest =>
    if f.name = fieldlist_name ∧ f.ftype = "fieldList" then
      match f.value with
      | FieldValue.rows rs =>
        match searchRows target_field_name rs with
        | some v => v
        | Option.none => PyVal.none
      | FieldValue.scalar _ => PyVal.none
    else extract_field_from_fieldlist rest fieldlist_name target_field_name

/-- The values of every sub-field named target_field_name in one row, in
row order (the inner append loop of extract_all_values_from_fieldlist). -/
def rowMatches (target_field_name : String) (row : List SubField) : List PyVal :=
  row.filterMap (fun sf =>
    if sf.name = target_field_name then some sf.value else Option.none)

/-- FieldExtractor.extract_all_values_from_fieldlist: all values of
target_field_name collected from every row of the first group named
fieldlist_name, rows in order; [] when no such group exists. -/
def extract_all_values_from_fieldlist (form_data : List FormField)
    (fieldlist_name target_field_name : String) : List PyVal :=
  match form_data with
  | [] => []
  | f :: rest =>
    if f.name = fieldlist_name ∧ f.ftype = "fieldList" then
      match f.value with
      | FieldValue.rows rs => rs.flatMap (rowMatches target_field_name)
      | FieldValue.scalar _ => []
    else extract_all_values_from_fieldlist rest fieldlist_name target_field_name

/-! ## Python numeric semantics

float() / int() / truthiness, with Python float arithmetic idealized as
exact rational arithmetic. float(x) on unsuitable input raises
ValueError/TypeError, modeled as Option.none; callers that catch the
exception branch on it. The string parser covers plain decimal literals
(optional sign, digits, optional fraction part), the shape the form data
carries; exotic float syntax is out of scope. -/

def charDigit (c : Char) : ℕ := c.toNat - 48

def digitsToNat (l : List Char) : ℕ :=
  l.foldl (fun a c => 10 * a + charDigit c) 0

/-- Unsigned decimal literal: digits, optionally followed by a dot and
more digits, at least one digit in total. -/
def parseUnsigned (cs : List Char) : Option ℚ :=
  let ip := cs.takeWhile Char.isDigit
  match cs.dropWhile Char.isDigit with
  | [] => if ip.isEmpty then Option.none else some (digitsToNat ip)
  | '.' :: frac =>
    if frac.all Char.isDigit ∧ ¬(ip.isEmpty ∧ frac.isEmpty) then
      some ((digitsToNat ip : ℚ) + (digitsToNat frac : ℚ) / (10 : ℚ) ^ frac.length)
    else Option.none
  | _ => Option.none

/-- Python float(s) for a plain decimal string. -/
def parseFloat (s : String) : Option ℚ :=
  match s.data with
  | '-' :: rest => (parseUnsigned rest).map Neg.neg
  | '+' :: rest => parseUnsigned rest
  | cs => parseUnsigned cs

/-- Python float(v) on a scalar form value: None raises TypeError. -/
def pyValFloat : PyVal → Option ℚ
  | PyVal.none => Option.none
  | PyVal.str s => parseFloat s
  | PyVal.num q => some q

/-- Python float(v) on an extracted field value: a row list raises TypeError. -/
def fieldFloat : FieldValue → Option ℚ
  | FieldValue.scalar v => pyValFloat v
  | FieldValue.rows _ => Option.none

/-- Python int(f) for f a float: truncation toward zero. -/
def pyTrunc (q : ℚ) : ℤ := Int.tdiv q.num (q.den : ℤ)

/-- Python truthiness of an extracted form value (used by the
`if not all([...])` guards): None, empty string, zero and the empty
list are falsy. -/
def pyTruthy : FieldValue → Bool
  | FieldValue.scalar PyVal.none => false
  | FieldValue.scalar (PyVal.str s) => !(s = "")
  | FieldValue.scalar (PyVal.num q) => !(q = 0)
  | FieldValue.rows rs => !rs.isEmpty

/-- Python truthiness of an optional configuration string. -/
def optTruthy : Option String → Bool
  | Option.none => false
  | some s => !(s = "")

/-! ## Trigger resolver (QRProcessor._find_active_qr_trigger,
src/app/domains/qr_generation/services/qr_processor.py) -/

/-- One entry of an instance's task_list (the data model's TaskSnapshot;
the plain name Task is taken by the Lean core library). -/
structure TaskSnapshot where
  node_id : String
  node_name : String
  status : String
deriving DecidableEq, Repr

/-- One entry of a workflow's qr_trigger_nodes list. The two format
strings carry exactly one integer placeholder and are modeled as
functions of the 1-based round index. -/
structure TriggerConfig where
  node_name_contains : String
  status : String
  yes_no_field_template : ℕ → String
  amount_field_template : ℕ → String
  qr_type : String

structure ActiveTrigger where
  amount : FieldValue
  node_id : String
  node_name : String
  qr_type : String
  field_used : String
  trigger_round : ℕ
deriving DecidableEq, Repr

/-- needle is a prefix of hay (character lists). -/
def listStarts : List Char → List Char → Bool
  | [], _ => true
  | _ :: _, [] => false
  | a :: as, b :: bs => a = b && listStarts as bs

/-- Python substring test: needle in hay. -/
def listSub (needle : List Char) : List Char → Bool
  | [] => needle.isEmpty
  | b :: bs => listStarts needle (b :: bs) || listSub needle bs

def strContainsSub (needle hay : String) : Bool :=
  listSub needle.data hay.data

/-- nodes_by_name: the dict built over the task list, grouping tasks by
exact node name; groups appear in order of first occurrence, tasks within
a group in task-list order. -/
def groupByName (task_list : List TaskSnapshot) : List (String × List TaskSnapshot) :=
  task_list.foldl (fun acc t => dictPush acc t.node_name t) []

/-- matching_nodes: walk the dict in insertion order and concatenate the
groups whose name contains the configured substring. -/
def matchingNodes (node_name_contains : String) : List (String × List TaskSnapshot) → List TaskSnapshot
  | [] => []
  | (name, nodes) :: rest =>
    if strContainsSub node_name_contains name then
      nodes ++ matchingNodes node_name_contains rest
    else matchingNodes node_name_contains rest

/-- The enumerate(matching_nodes, 1) loop: every matching task consumes a
round index i whether or not it qualifies; the first task whose status
matches and whose instantiated yes/no field resolves to "Yes" yields the
trigger, with the instantiated amount field resolved at that point. -/
def scanRounds (form_data : List FormField) (cfg : TriggerConfig) :
    ℕ → List TaskSnapshot → Option ActiveTrigger
  | _, [] => Option.none
  | i, node :: rest =>
    if node.status = cfg.status then
      let yes_no_field_name := cfg.yes_no_field_template i
      let amount_field_name := cfg.amount_field_template i
      if extract_field_value form_data yes_no_field_name
          = FieldValue.scalar (PyVal.str "Yes") then
        some { amount := extract_field_value form_data amount_field_name
             , node_id := node.node_id
             , node_name := node.node_name
             , qr_type := cfg.qr_type
             , field_used := amount_field_name
             , trigger_round := i }
      else scanRounds form_data cfg (i + 1) rest
    else scanRounds form_data cfg (i + 1) rest

/-- The outer loop over qr_trigger_configs: first config that yields a
trigger wins. -/
def findOverConfigs (nodes_by_name : List (String × List TaskSnapshot))
    (form_data : List FormField) : List TriggerConfig → Option ActiveTrigger
  | [] => Option.none
  | cfg :: rest =>
    match scanRounds form_data cfg 1 (matchingNodes cfg.node_name_contains nodes_by_name) with
    | some t => some t
    | Option.none => findOverConfigs nodes_by_name form_data rest

/-- QRProcessor._find_active_qr_trigger. -/
def find_active_qr_trigger (task_list : List TaskSnapshot) (form_data : List FormField)
    (qr_trigger_configs : List TriggerConfig) : Option ActiveTrigger :=
  findOverConfigs (groupByName task_list) form_data qr_trigger_configs

/-! ## Spec-side trigger resolvers

Two resolver variants written from the specification text rather than
from the source, used to compare the source behavior against the claimed
one. Both enumerate their candidate tasks with 1-based indices and take
the first qualifying round; they differ from the source construction in
the shape of the search (index list plus findSome instead of a counting
loop over a dict) and from each other in the enumeration order. -/

/-- One enumerated candidate round, per the specification text: the round
qualifies when the task has the required status and the instantiated
yes/no field resolves to the confirmation token "Yes"; a qualifying round
yields the trigger with the resolved amount and its round index. -/
def roundTrigger (form_data : List FormField) (cfg : TriggerConfig)
    (p : ℕ × TaskSnapshot) : Option ActiveTrigger :=
  if p.2.status = cfg.status
      ∧ extract_field_value form_data (cfg.yes_no_field_template p.1)
        = FieldValue.scalar (PyVal.str "Yes") then
    some { amount := extract_field_value form_data (cfg.amount_field_template p.1)
         , node_id := p.2.node_id
         , node_name := p.2.node_name
         , qr_type := cfg.qr_type
         , field_used := cfg.amount_field_template p.1
         , trigger_round := p.1 }
  else Option.none

/-- Stated claim ordering: the tasks whose node name contains the
substring, in plain task-list order. -/
def matchingTasksClaimOrder (node_name_contains : String)
    (task_list : List TaskSnapshot) : List TaskSnapshot :=
  task_list.filter (fun t => strContainsSub node_name_contains t.node_name)

/-- The trigger resolver exactly as the claim states it: specs in
declaration order, matching tasks in task-list order, 1-based round
index by that order, first qualifying round wins. -/
def find_active_trigger_claim_order (task_list : List TaskSnapshot)
    (form_data : List FormField) (qr_trigger_configs : List TriggerConfig) :
    Option ActiveTrigger :=
  qr_trigger_configs.findSome? (fun cfg =>
    ((matchingTasksClaimOrder cfg.node_name_contains task_list).enumFrom 1).findSome?
      (roundTrigger form_data cfg))

/-- Distinct node names in order of first occurrence, given names already
seen. -/
def newNames (seen : List String) : List TaskSnapshot → List String
  | [] => []
  | t :: ts =>
    if t.node_name ∈ seen then newNames seen ts
    else t.node_name :: newNames (t.node_name :: seen) ts

/-- Distinct node names of a task list in order of first occurrence. -/
def firstOccNames (task_list : List TaskSnapshot) : List String :=
  newNames [] task_list

/-- Amended ordering: matching tasks grouped by exact node name, groups
in order of first occurrence in the task list, tasks within a group in
task-list order. -/
def groupedMatchingTasks (node_name_contains : String)
    (task_list : List TaskSnapshot) : List TaskSnapshot :=
  ((firstOccNames task_list).filter
      (fun n => strContainsSub node_name_contains n)).flatMap
    (fun n => task_list.filter (fun t => t.node_name = n))

/-- The trigger resolver with the amended (grouped-by-name) ordering. -/
def find_active_trigger_grouped (task_list : List TaskSnapshot)
    (form_data : List FormField) (qr_trigger_configs : List TriggerConfig) :
    Option ActiveTrigger :=
  qr_trigger_configs.findSome? (fun cfg =>
    ((groupedMatchingTasks cfg.node_name_contains task_list).enumFrom 1).findSome?
      (roundTrigger form_data cfg))

/-! ## Validation models
(src/app/domains/validation/models/validation.py) -/

inductive ValidationType : Type where
  | amount_sum
  | advance_amount_mismatch
  | payment_amount_mismatch
  | total_amount_mismatch
  | workflow_status
  | field_consistency
  | payment_consistency
  | total_payment_validation
deriving DecidableEq, Repr

inductive ValidationStatus : Type where
  | valid
  | invalid
  | skipped
  | error
deriving DecidableEq, Repr

/-- ValidationResult without the free-text message and details payload:
alert wording is outside the verified surface. -/
structure ValidationResult where
  is_valid : Bool
  validation_type : ValidationType
  status : ValidationStatus
deriving DecidableEq, Repr

def create_valid (validation_type : ValidationType) : ValidationResult :=
  ⟨true, validation_type, ValidationStatus.valid⟩

def create_invalid (validation_type : ValidationType) : ValidationResult :=
  ⟨false, validation_type, ValidationStatus.invalid⟩

/-- Skipped is not a failure: is_valid is set to true. -/
def create_skipped (validation_type : ValidationType) : ValidationResult :=
  ⟨true, validation_type, ValidationStatus.skipped⟩

def create_error (validation_type : ValidationType) : ValidationResult :=
  ⟨false, validation_type, ValidationStatus.error⟩

/-! ## Form field name constants
(src/app/core/config/field_constants.py) -/

def FFN_ADVANCE_AMOUNT : String := "Số tiền tạm ứng"
def FFN_PAYMENT_AMOUNT : String := "Số tiền thanh toán"
def FFN_REMAINING_PAYMENT_AMOUNT : String := "Số tiền còn phải thanh toán"
def FFN_TOTAL_PAYMENT_AMOUNT : String := "Total số tiền thanh toán"
def FFN_ACCOUNTING_ADVANCE_INFO : String := "Kế toán - Thông tin tạm ứng"
def FFN_ACCOUNTING_PAYMENT_INFO : String := "Kế toán - Thông tin thanh toán"
def FFN_EXPENDITURE_AMOUNT : String := "Số tiền chi"

/-! ## ValidationService
(src/app/domains/validation/services/validation_service.py) -/

/-- Python abs() on a float, in a form the kernel evaluates directly. -/
def ratAbs (q : ℚ) : ℚ := if q < 0 then -q else q

theorem ratAbs_eq_abs (q : ℚ) : ratAbs q = |q| := by
  rcases lt_or_ge q 0 with h | h
  · rw [ratAbs, if_pos h, abs_of_neg h]
  · rw [ratAbs, if_neg (not_lt.mpr h), abs_of_nonneg h]

/-- The submitter-declared advance field for round i. -/
def advance_field_name (i : ℕ) : String :=
  "Số tiền tạm ứng lần " ++ toString i ++ ":"

/-- One iteration of the round loop of validate_advance_amount_mismatch:
the results this round appends, with whether the submitter field for
this round was present. A missing submitter value or a missing
accountant row skips the comparison; a comparison with absolute
difference of at least 0.01 appends an INVALID result, and so does a
ValueError/TypeError from float() on either side. -/
def advance_round_check (form_data : List FormField)
    (accountant_expenditures : List PyVal) (i : ℕ) :
    List ValidationResult × Bool :=
  let user_advance_value := extract_field_value form_data (advance_field_name i)
  let found := decide (user_advance_value ≠ FieldValue.scalar PyVal.none)
  if accountant_expenditures.length ≤ i - 1
      ∨ user_advance_value = FieldValue.scalar PyVal.none then
    ([], found)
  else
    let accountant_expenditure_value := accountant_expenditures.getD (i - 1) PyVal.none
    match fieldFloat user_advance_value, pyValFloat accountant_expenditure_value with
    | some user_amount, some accountant_amount =>
      if ratAbs (user_amount - accountant_amount) ≥ 1 / 100 then
        ([create_invalid ValidationType.advance_amount_mismatch], found)
      else ([], found)
    | _, _ => ([create_invalid ValidationType.advance_amount_mismatch], found)

/-- ValidationService.validate_advance_amount_mismatch: rounds 1..4, then
one VALID result when data was present and no round mismatched, or one
SKIPPED result when no round had submitter data. -/
def validate_advance_amount_mismatch (form_data : List FormField) :
    List ValidationResult :=
  let accountant_expenditures := extract_all_values_from_fieldlist form_data
    FFN_ACCOUNTING_ADVANCE_INFO FFN_EXPENDITURE_AMOUNT
  let rounds := [1, 2, 3, 4].map (advance_round_check form_data accountant_expenditures)
  let results := (rounds.map Prod.fst).flatten
  let found_data := rounds.any Prod.snd
  let results :=
    if results.isEmpty && found_data then
      [create_valid ValidationType.advance_amount_mismatch]
    else results
  if !found_data then
    results ++ [create_skipped ValidationType.advance_amount_mismatch]
  else results

/-- ValidationService.validate_payment_amount_mismatch. -/
def validate_payment_amount_mismatch (form_data : List FormField) :
    ValidationResult :=
  let payment_info_amount := extract_field_from_fieldlist form_data
    FFN_ACCOUNTING_PAYMENT_INFO FFN_EXPENDITURE_AMOUNT
  let amount_due := extract_field_value form_data FFN_REMAINING_PAYMENT_AMOUNT
  let amount_paid := extract_field_value form_data FFN_PAYMENT_AMOUNT
  let compare_amount :=
    if amount_due ≠ FieldValue.scalar PyVal.none then amount_due else amount_paid
  if payment_info_amount = PyVal.none
      ∨ compare_amount = FieldValue.scalar PyVal.none then
    create_skipped ValidationType.payment_amount_mismatch
  else
    match pyValFloat payment_info_amount, fieldFloat compare_amount with
    | some payment_info_float, some compare_amount_float =>
      if ratAbs (payment_info_float - compare_amount_float) < 1 / 100 then
        create_valid ValidationType.payment_amount_mismatch
      else create_invalid ValidationType.payment_amount_mismatch
    | _, _ => create_error ValidationType.payment_amount_mismatch

/-- ValidationService.validate_workflow_status. -/
def validate_workflow_status (task_list : List TaskSnapshot) (node_id : String) :
    ValidationResult :=
  match task_list.find? (fun t => t.node_id == node_id) with
  | Option.none => create_skipped ValidationType.workflow_status
  | some target_node =>
    if target_node.status = "REJECTED" ∨ target_node.status = "CANCELED"
        ∨ target_node.status = "WITHDRAWN" then
      create_invalid ValidationType.workflow_status
    else create_valid ValidationType.workflow_status

/-- ValidationService.validate_field_consistency (placeholder rule). -/
def validate_field_consistency : ValidationResult :=
  create_valid ValidationType.field_consistency

/-- ValidationService.run_all_validations: the registered rules in the
insertion order of the validation_rules dict (advance, payment,
workflow status, field consistency; the total-amount rule is commented
out in the source); a rule returning a list is spliced, a single result
is appended. -/
def run_all_validations (form_data : List FormField)
    (task_list : List TaskSnapshot) (node_id : String) : List ValidationResult :=
  validate_advance_amount_mismatch form_data
    ++ [validate_payment_amount_mismatch form_data]
    ++ [validate_workflow_status task_list node_id]
    ++ [validate_field_consistency]

/-- ValidationEventHandler.handle_approval_event invokes
run_all_validations with the literal node id "dummy_node_id"
(src/app/domains/validation/handlers/validation_event_handler.py). -/
def handler_run_validations (form_data : List FormField)
    (task_list : List TaskSnapshot) : List ValidationResult :=
  run_all_validations form_data task_list "dummy_node_id"

/-! ## QRProcessor.process_approval_with_qr_comment
(src/app/domains/qr_generation/services/qr_processor.py)

External collaborators (config lookup, instance fetch, QR rendering,
image upload, comment posting) are modeled as inputs of the call: each
carries the answer the collaborator would give. The function result
carries the success flag, the QR cache after the call, and the ordered
trace of the side-effecting steps that were reached. -/

structure WorkflowFieldMappings where
  bank_name : Option String
  account_number : Option String
  beneficiary_name : Option String

structure WorkflowConfig where
  name : String
  qr_trigger_nodes : List TriggerConfig
  field_mappings : WorkflowFieldMappings

/-- QRProcessor.validate_amount_value, without the message text: None and
unparsable values are invalid, the parsed float is truncated to int and
must be strictly positive. -/
structure AmountValidation where
  valid : Bool
  amount : Option ℤ
deriving DecidableEq, Repr

def validate_amount_value (amount_value : FieldValue) : AmountValidation :=
  if amount_value = FieldValue.scalar PyVal.none then
    { valid := false, amount := Option.none }
  else
    match fieldFloat amount_value with
    | Option.none => { valid := false, amount := Option.none }
    | some amount_float =>
      let amount_int := pyTrunc amount_float
      if amount_int ≤ 0 then { valid := false, amount := some amount_int }
      else { valid := true, amount := some amount_int }

/-- The instance snapshot: task list plus the form JSON; a form of none
models a json.loads failure, which the outer except-branch turns into a
failed call. -/
structure ApiData where
  task_list : List TaskSnapshot
  form : Option (List FormField)

/-- The environment of one process_approval_with_qr_comment call: the
workflow configuration found for the approval code, the fetched
instance, the current time, and the outcomes the three external
collaborators would report. -/
structure ProcEnv where
  workflow_config : Option WorkflowConfig
  api_response : Option ApiData
  now : ℤ
  qr_ok : Bool
  upload_ok : Bool
  comment_ok : Bool

inductive ExtAction : Type where
  | upload : ExtAction
  | markCache : String → ExtAction
  | postComment : ExtAction
deriving DecidableEq, Repr

structure ProcResult where
  success : Bool
  cache : CacheMap
  actions : List ExtAction
deriving DecidableEq, Repr

def process_approval_with_qr_comment (env : ProcEnv) (instance_code : String)
    (cache : CacheMap) : ProcResult :=
  match env.workflow_config with
  | Option.none => ⟨true, cache, []⟩
  | some workflow_config =>
    match env.api_response with
    | Option.none => ⟨false, cache, []⟩
    | some api =>
      match api.form with
      | Option.none => ⟨false, cache, []⟩
      | some form_data =>
        match find_active_qr_trigger api.task_list form_data
            workflow_config.qr_trigger_nodes with
        | Option.none => ⟨true, cache, []⟩
        | some trig =>
          let checked := is_qr_recently_generated cache instance_code
            trig.node_id trig.qr_type QR_CACHE_DURATION_MINUTES env.now
          if checked.1 then ⟨true, checked.2, []⟩
          else
            let cache1 := checked.2
            let amount_validation := validate_amount_value trig.amount
            if !amount_validation.valid then ⟨false, cache1, []⟩
            else
              match workflow_config.field_mappings.bank_name,
                  workflow_config.field_mappings.account_number,
                  workflow_config.field_mappings.beneficiary_name with
              | some bank_id_field, some account_no_field, some account_name_field =>
                if bank_id_field = "" ∨ account_no_field = ""
                    ∨ account_name_field = "" then ⟨false, cache1, []⟩
                else
                  let bank_id := extract_field_value form_data bank_id_field
                  let account_no := extract_field_value form_data account_no_field
                  let account_name := extract_field_value form_data account_name_field
                  if !(pyTruthy bank_id && pyTruthy account_no
                      && pyTruthy account_name) then ⟨false, cache1, []⟩
                  else if !env.qr_ok then ⟨false, cache1, []⟩
                  else if !env.upload_ok then ⟨false, cache1, [ExtAction.upload]⟩
                  else
                    let cache2 := mark_qr_as_generated cache1 instance_code
                      trig.node_id trig.qr_type env.now
                    let key := generate_cache_key instance_code trig.node_id trig.qr_type
                    ⟨env.comment_ok, cache2,
                      [ExtAction.upload, ExtAction.markCache key, ExtAction.postComment]⟩
              | _, _, _ => ⟨false, cache1, []⟩

/-! ## EventBus (src/app/core/infrastructure/event_bus.py)

Handlers are modeled as named functions from the event payload to a
result or a raised error. asyncio.gather with return_exceptions=True
collects one outcome per handler in subscription order, so publish is
modeled as an order-preserving map; wall-clock durations are not
modeled. -/

structure Handler (α β : Type) where
  name : String
  run : α → Except String β

structure HandlerOutcome (β : Type) where
  handler : String
  success : Bool
  result : Option β
  error : Option String
deriving DecidableEq, Repr

structure EventRecord (α : Type) where
  timestamp : ℤ
  event_type : String
  data : α
  handlers_count : ℕ
deriving DecidableEq, Repr

structure EventBus (α β : Type) where
  handlers : List (String × List (Handler α β))
  event_history : List (EventRecord α)

/-- EventBus._run_handler_safe: a raised error becomes a failed outcome
carrying the error. -/
def run_handler_safe {α β : Type} (handler : Handler α β) (event_data : α) :
    HandlerOutcome β :=
  match handler.run event_data with
  | Except.ok r => ⟨handler.name, true, some r, Option.none⟩
  | Except.error e => ⟨handler.name, false, Option.none, some e⟩

/-- EventBus.subscribe: append the handler to the list for the event type. -/
def subscribe {α β : Type} (bus : EventBus α β) (event_type : String)
    (handler : Handler α β) : EventBus α β :=
  { bus with handlers := dictPush bus.handlers event_type handler }

/-- EventBus.publish: record the event in the history, then run every
registered handler for the type and return their outcomes in
subscription order; no registered handler gives an empty list. -/
def publish {α β : Type} (bus : EventBus α β) (event_type : String)
    (event_data : α) (now : ℤ) : List (HandlerOutcome β) × EventBus α β :=
  let record : EventRecord α :=
    ⟨now, event_type, event_data, ((dictGet bus.handlers event_type).getD []).length⟩
  let bus1 := { bus with event_history := bus.event_history ++ [record] }
  match dictGet bus.handlers event_type with
  | some hs => (hs.map (fun h => run_handler_safe h event_data), bus1)
  | Option.none => ([], bus1)

/-- EventBus.get_event_history: the Python slice history[-limit:], whole
history when limit is 0, else the at most limit most recent records. -/
def get_event_history {α β : Type} (bus : EventBus α β) (limit : ℕ) :
    List (EventRecord α) :=
  if limit = 0 then bus.event_history
  else bus.event_history.drop (bus.event_history.length - limit)

/-- A bus that starts empty and receives n publishes of the same event. -/
def pubIter : ℕ → EventBus Unit Unit
  | 0 => ⟨[], []⟩
  | n + 1 => (publish (pubIter n) "approval.instance.updated" () 0).2

/-! ## Helper lemmas on the dict model -/

theorem dictGet_dictSet_self {γ : Type} (m : List (String × γ)) (k : String) (v : γ) :
    dictGet (dictSet m k v) k = some v := by
  induction m with
  | nil => simp [dictSet, dictGet]
  | cons p rest ih =>
    obtain ⟨k1, v1⟩ := p
    by_cases h : k1 = k
    · simp [dictSet, h, dictGet]
    · simp [dictSet, h, dictGet, ih]

theorem dictGet_eq_none_of_not_mem {γ : Type} (m : List (String × γ)) (k : String)
    (h : k ∉ m.map Prod.fst) : dictGet m k = Option.none := by
  induction m with
  | nil => simp [dictGet]
  | cons p rest ih =>
    obtain ⟨k1, v1⟩ := p
    simp only [List.map_cons, List.mem_cons] at h
    push_neg at h
    simp [dictGet, Ne.symm h.1, ih h.2]

theorem keys_dictSet {γ : Type} (m : List (String × γ)) (k : String) (v : γ) :
    (dictSet m k v).map Prod.fst
      = if k ∈ m.map Prod.fst then m.map Prod.fst else m.map Prod.fst ++ [k] := by
  induction m with
  | nil => simp [dictSet]
  | cons p rest ih =>
    obtain ⟨k1, v1⟩ := p
    by_cases h : k1 = k
    · simp [dictSet, h]
    · simp only [dictSet, if_neg h, List.map_cons, ih, List.mem_cons]
      by_cases hm : k ∈ rest.map Prod.fst
      · simp [hm, Ne.symm h]
      · simp [hm, Ne.symm h]

theorem nodup_keys_dictSet {γ : Type} (m : List (String × γ)) (k : String) (v : γ)
    (h : (m.map Prod.fst).Nodup) : ((dictSet m k v).map Prod.fst).Nodup := by
  rw [keys_dictSet]
  by_cases hm : k ∈ m.map Prod.fst
  · simpa [hm]
  · simpa [hm] using List.Nodup.append h (List.nodup_singleton k) (by simpa using hm)

theorem dictGet_dictDel_self {γ : Type} (m : List (String × γ)) (k : String)
    (h : (m.map Prod.fst).Nodup) : dictGet (dictDel m k) k = Option.none := by
  induction m with
  | nil => simp [dictDel, dictGet]
  | cons p rest ih =>
    obtain ⟨k1, v1⟩ := p
    simp only [List.map_cons, List.nodup_cons] at h
    by_cases hk : k1 = k
    · subst hk
      simpa [dictDel] using dictGet_eq_none_of_not_mem rest k1 h.1
    · simp [dictDel, hk, dictGet, Ne.symm hk, ih h.2]

theorem dictGet_dictPush_self {γ : Type} (m : List (String × List γ)) (k : String) (x : γ) :
    dictGet (dictPush m k x) k = some ((dictGet m k).getD [] ++ [x]) := by
  induction m with
  | nil => simp [dictPush, dictGet]
  | cons p rest ih =>
    obtain ⟨k1, v1⟩ := p
    by_cases h : k1 = k
    · simp [dictPush, h, dictGet]
    · simp [dictPush, h, dictGet, ih]

/-- Looking a key up right after it was written: true exactly when the
elapsed time is within the window. -/
theorem seen_recently_after_set_iff (m : CacheMap) (k : String) (d T t : ℤ) :
    ((seen_recently (dictSet m k T) k d t).1 = true) ↔ t - T ≤ 60 * d := by
  unfold seen_recently
  rw [dictGet_dictSet_self]
  by_cases h : t - T > 60 * d
  · simp only [if_pos h]
    constructor
    · intro hfalse; cases hfalse
    · intro hle; omega
  · simp only [if_neg h]
    constructor
    · intro _; omega
    · intro _; trivial

/-- A stale entry is evicted by the lookup. -/
theorem seen_recently_after_set_evict (m : CacheMap) (k : String) (d T t : ℤ)
    (hnd : (m.map Prod.fst).Nodup) (h : t - T > 60 * d) :
    dictGet (seen_recently (dictSet m k T) k d t).2 k = Option.none := by
  unfold seen_recently
  rw [dictGet_dictSet_self]
  simp only [if_pos h]
  exact dictGet_dictDel_self _ k (nodup_keys_dictSet m k T hnd)

/-- An absent key answers false and changes nothing. -/
theorem seen_recently_absent (m : CacheMap) (k : String) (d t : ℤ)
    (h : dictGet m k = Option.none) : seen_recently m k d t = (false, m) := by
  unfold seen_recently
  rw [h]

/-! ## Claim C2 -/

/-- C2 counterexample: a QR key marked at time 0 with the 5-minute TTL is
still reported as recently seen at time 300 s = 0 + TTL, although the
claim requires "not recently seen" for every lookup time at or past
T + TTL. -/
theorem C2_counterexample :
    ((300 : ℤ) ≥ 0 + 60 * 5)
    ∧ (is_qr_recently_generated (mark_qr_as_generated [] "I1" "node0001" "advance" 0)
        "I1" "node0001" "advance" 5 300).1 = true := by
  exact ⟨by decide, by decide⟩

/-- C2 (amended): for every cache key marked at time T with TTL d (5
minutes for QR keys, 10 minutes for validation-alert keys), a seen-check
at time t reports recently-seen exactly when t - T ≤ TTL, so the window
is closed at the right end: at t = T + TTL the key still reports seen,
and only strictly after T + TTL does the check report false, evicting
the entry; an absent key always reports false and leaves the cache
unchanged. -/
theorem C2_ttl_window (cache : CacheMap)
    (instance_code node_id qr_type validation_type : String) (d T t : ℤ)
    (hnd : (cache.map Prod.fst).Nodup) :
    (((is_qr_recently_generated
        (mark_qr_as_generated cache instance_code node_id qr_type T)
        instance_code node_id qr_type d t).1 = true) ↔ t - T ≤ 60 * d)
    ∧ (t - T > 60 * d →
        dictGet (is_qr_recently_generated
            (mark_qr_as_generated cache instance_code node_id qr_type T)
            instance_code node_id qr_type d t).2
          (generate_cache_key instance_code node_id qr_type) = Option.none)
    ∧ (((is_validation_alert_recently_sent
        (mark_validation_alert_as_sent cache instance_code validation_type T)
        instance_code validation_type d t).1 = true) ↔ t - T ≤ 60 * d)
    ∧ (t - T > 60 * d →
        dictGet (is_validation_alert_recently_sent
            (mark_validation_alert_as_sent cache instance_code validation_type T)
            instance_code validation_type d t).2
          (generate_validation_cache_key instance_code validation_type) = Option.none)
    ∧ (dictGet cache (generate_cache_key instance_code node_id qr_type) = Option.none →
        is_qr_recently_generated cache instance_code node_id qr_type d t = (false, cache))
    ∧ (dictGet cache (generate_validation_cache_key instance_code validation_type)
          = Option.none →
        is_validation_alert_recently_sent cache instance_code validation_type d t
          = (false, cache)) := by
  refine ⟨?_, ?_, ?_, ?_, ?_, ?_⟩
  · exact seen_recently_after_set_iff cache _ d T t
  · exact fun h => seen_recently_after_set_evict cache _ d T t hnd h
  · exact seen_recently_after_set_iff cache _ d T t
  · exact fun h => seen_recently_after_set_evict cache _ d T t hnd h
  · exact fun h => seen_recently_absent cache _ d t h
  · exact fun h => seen_recently_absent cache _ d t h

/-- C2 witness: the amended statement applied to an empty cache, TTL 5
minutes, mark at 0, lookup at 60 s. -/
theorem C2_ttl_window_witness :
    (is_qr_recently_generated (mark_qr_as_generated [] "I1" "node0001" "advance" 0)
      "I1" "node0001" "advance" 5 60).1 = true :=
  (C2_ttl_window [] "I1" "node0001" "advance" "amount_mismatch" 5 0 60
    (by simp)).1.mpr (by decide)

/-! ## Claim C9 -/

theorem short_node_id_eq_of_take_eq (n1 n2 : String)
    (h : n1.data.take 8 = n2.data.take 8) : short_node_id n1 = short_node_id n2 := by
  unfold short_node_id
  have hlen1 : n1.length = n1.data.length := rfl
  have hlen2 : n2.length = n2.data.length := rfl
  by_cases h1 : n1.length > 8
  · by_cases h2 : n2.length > 8
    · simp only [if_pos h1, if_pos h2, h]
    · have htk2 : n2.data.take 8 = n2.data :=
        List.take_of_length_le (by omega)
      have hd : n1.data.take 8 = n2.data := by rw [h, htk2]
      simp only [if_pos h1, if_neg h2]
      exact congrArg String.mk hd
  · have htk1 : n1.data.take 8 = n1.data :=
      List.take_of_length_le (by omega)
    by_cases h2 : n2.length > 8
    · have hd : n1.data = n2.data.take 8 := by rw [← htk1, h]
      simp only [if_neg h1, if_pos h2]
      exact congrArg String.mk hd
    · have htk2 : n2.data.take 8 = n2.data :=
        List.take_of_length_le (by omega)
      have hd : n1.data = n2.data := by rw [← htk1, ← htk2, h]
      simp only [if_neg h1, if_neg h2]
      exact congrArg String.mk hd

/-- C9: QR dedup keys depend only on the first eight characters of the
node id: two node ids agreeing on their first eight characters give the
identical cache key, and marking QR generation under one of them makes
the recently-generated check answer true for the other within the TTL
window. -/
theorem C9_key_truncation (instance_code qr_type n1 n2 : String)
    (h : n1.data.take 8 = n2.data.take 8) :
    generate_cache_key instance_code n1 qr_type
      = generate_cache_key instance_code n2 qr_type
    ∧ ∀ (cache : CacheMap) (d T t : ℤ), t - T ≤ 60 * d →
        (is_qr_recently_generated
          (mark_qr_as_generated cache instance_code n1 qr_type T)
          instance_code n2 qr_type d t).1 = true := by
  have hkey : generate_cache_key instance_code n1 qr_type
      = generate_cache_key instance_code n2 qr_type := by
    unfold generate_cache_key
    rw [short_node_id_eq_of_take_eq n1 n2 h]
  refine ⟨hkey, fun cache d T t hwin => ?_⟩
  unfold is_qr_recently_generated mark_qr_as_generated
  rw [← hkey]
  exact (seen_recently_after_set_iff cache _ d T t).mpr hwin

/-- C9 witness: two node ids sharing the first eight characters, marked
under one and checked under the other 10 s later with the 5-minute TTL. -/
theorem C9_key_truncation_witness :
    (is_qr_recently_generated
      (mark_qr_as_generated [] "I1" "abcdefgh123" "advance" 0)
      "I1" "abcdefgh999" "advance" 5 10).1 = true :=
  (C9_key_truncation "I1" "advance" "abcdefgh123" "abcdefgh999" (by decide)).2
    [] 5 0 10 (by decide)

/-! ## Claim C4 -/

/-- A form in which the name X occurs first inside a repeating group and
then as a top-level scalar field. -/
def c4Form : List FormField :=
  [ ⟨"G", "fieldList", FieldValue.rows [[⟨"X", PyVal.str "inner"⟩]]⟩
  , ⟨"X", "text", FieldValue.scalar (PyVal.str "top")⟩ ]

/-- C4 counterexample: the name X exists both as a top-level scalar field
(value "top") and inside a repeating group that precedes it in document
order (value "inner"); extract_field_value returns the group's value,
not the top-level one, so top-level fields are not all searched before
any group's rows. -/
theorem C4_counterexample :
    extract_field_value c4Form "X" = FieldValue.scalar (PyVal.str "inner")
    ∧ (c4Form.getD 1 ⟨"", "", FieldValue.scalar PyVal.none⟩).value
        = FieldValue.scalar (PyVal.str "top")
    ∧ FieldValue.scalar (PyVal.str "inner") ≠ FieldValue.scalar (PyVal.str "top") := by
  refine ⟨rfl, rfl, by decide⟩

/-- C4 (amended): extract_field_value returns the first match of a single
left-to-right pass in which each field's own name is tested before its
rows; hence whichever occurrence — top-level scalar or enclosing
repeating group — comes first in document order wins. Formally: when no
field before f yields a hit and f yields the hit v (its own value when
its name matches, else a value found in its rows), the extractor returns
v. -/
theorem C4_first_match_wins (pre post : List FormField) (f : FormField)
    (field_name : String) (v : FieldValue)
    (hf : fieldHit field_name f = some v)
    (hpre : ∀ g ∈ pre, fieldHit field_name g = Option.none) :
    extract_field_value (pre ++ f :: post) field_name = v := by
  induction pre with
  | nil =>
    simp only [List.nil_append, extract_field_value, hf]
  | cons g gs ih =>
    have hg : fieldHit field_name g = Option.none := hpre g (by simp)
    simp only [List.cons_append, extract_field_value, hg]
    exact ih (fun x hx => hpre x (by simp [hx]))

/-- C4 witness: a top-level field with no earlier occurrence resolves to
its own value. -/
theorem C4_first_match_wins_witness :
    extract_field_value [⟨"X", "text", FieldValue.scalar (PyVal.str "top")⟩] "X"
      = FieldValue.scalar (PyVal.str "top") :=
  C4_first_match_wins [] [] ⟨"X", "text", FieldValue.scalar (PyVal.str "top")⟩
    "X" (FieldValue.scalar (PyVal.str "top")) rfl (by simp)

/-! ## Claim C8 -/

/-- A group with two rows, only the first of which carries the field X. -/
def c8Form : List FormField :=
  [ ⟨"G", "fieldList",
      FieldValue.rows [[⟨"X", PyVal.num 1⟩], [⟨"Y", PyVal.num 2⟩]]⟩ ]

/-- C8 counterexample: the group G has two rows, but the second row has
no sub-field named X, so extract_all_values_from_fieldlist returns one
value, not one value per row. -/
theorem C8_counterexample :
    extract_all_values_from_fieldlist c8Form "G" "X" = [PyVal.num 1]
    ∧ (extract_all_values_from_fieldlist c8Form "G" "X").length ≠ 2 := by
  refine ⟨rfl, by decide⟩

theorem length_one_eq_headI {γ : Type} [Inhabited γ] (xs : List γ)
    (h : xs.length = 1) : xs = [xs.headI] := by
  match xs, h with
  | [x], _ => rfl

theorem flatMap_of_length_one {γ δ : Type} [Inhabited δ] (l : List γ)
    (f : γ → List δ) (h : ∀ x ∈ l, (f x).length = 1) :
    l.flatMap f = l.map (fun x => (f x).headI) := by
  induction l with
  | nil => rfl
  | cons a as ih =>
    have ha : f a = [(f a).headI] := length_one_eq_headI (f a) (h a (by simp))
    simp only [List.flatMap_cons, List.map_cons, ih (fun x hx => h x (by simp [hx]))]
    rw [ha]
    rfl

/-- C8 (amended): for the first repeating group named fieldlist_name, the
extractor returns the concatenation over its rows, in row order, of the
values of every sub-field named target_field_name; rows without the
field contribute nothing and rows with several matches contribute
several values. In particular, when every row carries exactly one
matching sub-field the result has one value per row, element k being the
value in row k; and a form with no group of that name yields []. -/
theorem C8_values_per_row (fieldlist_name target_field_name : String) :
    (∀ (pre post : List FormField) (f : FormField) (rs : List (List SubField)),
      f.name = fieldlist_name → f.ftype = "fieldList" →
      f.value = FieldValue.rows rs →
      (∀ g ∈ pre, ¬(g.name = fieldlist_name ∧ g.ftype = "fieldList")) →
      extract_all_values_from_fieldlist (pre ++ f :: post)
          fieldlist_name target_field_name
        = rs.flatMap (rowMatches target_field_name)
      ∧ ((∀ row ∈ rs, (rowMatches target_field_name row).length = 1) →
          extract_all_values_from_fieldlist (pre ++ f :: post)
              fieldlist_name target_field_name
            = rs.map (fun row => (rowMatches target_field_name row).headI)
          ∧ (extract_all_values_from_fieldlist (pre ++ f :: post)
              fieldlist_name target_field_name).length = rs.length))
    ∧ (∀ form_data : List FormField,
        (∀ g ∈ form_data, ¬(g.name = fieldlist_name ∧ g.ftype = "fieldList")) →
        extract_all_values_from_fieldlist form_data
          fieldlist_name target_field_name = []) := by
  constructor
  · intro pre post f rs hn ht hv hpre
    have hbase : extract_all_values_from_fieldlist (pre ++ f :: post)
        fieldlist_name target_field_name
        = rs.flatMap (rowMatches target_field_name) := by
      induction pre with
      | nil =>
        simp only [List.nil_append, extract_all_values_from_fieldlist,
          if_pos (And.intro hn ht), hv]
      | cons g gs ih =>
        have hg : ¬(g.name = fieldlist_name ∧ g.ftype = "fieldList") :=
          hpre g (by simp)
        simp only [List.cons_append, extract_all_values_from_fieldlist, if_neg hg]
        exact ih (fun x hx => hpre x (by simp [hx]))
    refine ⟨hbase, fun hone => ?_⟩
    have hmap := flatMap_of_length_one rs (rowMatches target_field_name) hone
    constructor
    · rw [hbase, hmap]
    · rw [hbase, hmap, List.length_map]
  · intro form_data hno
    induction form_data with
    | nil => rfl
    | cons g gs ih =>
      have hg : ¬(g.name = fieldlist_name ∧ g.ftype = "fieldList") :=
        hno g (by simp)
      simp only [extract_all_values_from_fieldlist, if_neg hg]
      exact ih (fun x hx => hno x (by simp [hx]))

/-- C8 witness: a group whose two rows both carry X exactly once yields
exactly the two row values in order. -/
theorem C8_values_per_row_witness :
    extract_all_values_from_fieldlist
      [⟨"G", "fieldList",
          FieldValue.rows [[⟨"X", PyVal.num 1⟩], [⟨"X", PyVal.num 2⟩]]⟩]
      "G" "X"
      = ([[⟨"X", PyVal.num 1⟩], [⟨"X", PyVal.num 2⟩]] : List (List SubField)).map
          (fun row => (rowMatches "X" row).headI) :=
  ((((C8_values_per_row "G" "X").1 [] []
      ⟨"G", "fieldList", FieldValue.rows [[⟨"X", PyVal.num 1⟩], [⟨"X", PyVal.num 2⟩]]⟩
      [[⟨"X", PyVal.num 1⟩], [⟨"X", PyVal.num 2⟩]]
      rfl rfl rfl (by simp)).2) (by decide)).1

/-! ## Claim C10 -/

/-- Everything a round of the advance check appends is an INVALID
advance-mismatch result. -/
theorem advance_round_mem (form_data : List FormField) (exps : List PyVal) (i : ℕ)
    (r : ValidationResult) (hr : r ∈ (advance_round_check form_data exps i).1) :
    r = create_invalid ValidationType.advance_amount_mismatch := by
  simp only [advance_round_check] at hr
  split at hr
  · simp at hr
  · split at hr
    · split at hr
      · simp only [List.mem_singleton] at hr
        exact hr
      · simp at hr
    · simp only [List.mem_singleton] at hr
      exact hr

/-- Every result of the advance rule is tagged advance_amount_mismatch. -/
theorem validate_advance_vt (form_data : List FormField) :
    ∀ r ∈ validate_advance_amount_mismatch form_data,
      r.validation_type = ValidationType.advance_amount_mismatch := by
  intro r hr
  have hflat : ∀ s ∈ (([1, 2, 3, 4].map (advance_round_check form_data
      (extract_all_values_from_fieldlist form_data FFN_ACCOUNTING_ADVANCE_INFO
        FFN_EXPENDITURE_AMOUNT))).map Prod.fst).flatten,
      s.validation_type = ValidationType.advance_amount_mismatch := by
    intro s hs
    rw [List.mem_flatten] at hs
    obtain ⟨l, hl, hsl⟩ := hs
    rw [List.mem_map] at hl
    obtain ⟨p, hp, rfl⟩ := hl
    rw [List.mem_map] at hp
    obtain ⟨i, _, rfl⟩ := hp
    rw [advance_round_mem _ _ _ s hsl]
    rfl
  simp only [validate_advance_amount_mismatch] at hr
  split at hr
  · rw [List.mem_append] at hr
    rcases hr with hr | hr
    · revert hr
      split
      · intro hr
        simp only [List.mem_singleton] at hr
        subst hr
        rfl
      · intro hr
        exact hflat r hr
    · simp only [List.mem_singleton] at hr
      subst hr
      rfl
  · revert hr
    split
    · intro hr
      simp only [List.mem_singleton] at hr
      subst hr
      rfl
    · intro hr
      exact hflat r hr

/-- The payment rule always returns a payment_amount_mismatch result. -/
theorem validate_payment_vt (form_data : List FormField) :
    (validate_payment_amount_mismatch form_data).validation_type
      = ValidationType.payment_amount_mismatch := by
  simp only [validate_payment_amount_mismatch]
  repeat' split
  all_goals rfl

/-- When no task carries the queried node id, the workflow-status rule
reports skipped. -/
theorem validate_workflow_status_skipped (task_list : List TaskSnapshot)
    (node_id : String) (h : ∀ t ∈ task_list, t.node_id ≠ node_id) :
    validate_workflow_status task_list node_id
      = create_skipped ValidationType.workflow_status := by
  unfold validate_workflow_status
  have hfind : task_list.find? (fun t => t.node_id == node_id) = Option.none := by
    rw [List.find?_eq_none]
    intro t ht
    simpa using h t ht
  rw [hfind]

/-- C10: the validation event handler always invokes run_all_validations
with the literal node id "dummy_node_id"; for every instance whose task
list contains no task with that node id, the workflow-status rule yields
a SKIPPED result through the handler path, that result appears in the
handler output, and no result tagged workflow_status in the handler
output is ever INVALID (the revoked-node warning cannot arise there). -/
theorem C10_dummy_node_skip (form_data : List FormField)
    (task_list : List TaskSnapshot)
    (h : ∀ t ∈ task_list, t.node_id ≠ "dummy_node_id") :
    validate_workflow_status task_list "dummy_node_id"
      = create_skipped ValidationType.workflow_status
    ∧ validate_workflow_status task_list "dummy_node_id"
        ∈ handler_run_validations form_data task_list
    ∧ ∀ r ∈ handler_run_validations form_data task_list,
        r.validation_type = ValidationType.workflow_status →
          r.status = ValidationStatus.skipped := by
  have hw := validate_workflow_status_skipped task_list "dummy_node_id" h
  refine ⟨hw, ?_, ?_⟩
  · unfold handler_run_validations run_all_validations
    simp
  · intro r hr hvt
    unfold handler_run_validations run_all_validations at hr
    simp only [List.mem_append, List.mem_singleton] at hr
    rcases hr with ((hr | hr) | hr) | hr
    · have := validate_advance_vt form_data r hr
      rw [hvt] at this
      cases this
    · subst hr
      have := validate_payment_vt form_data
      rw [hvt] at this
      cases this
    · subst hr
      rw [hw]
      rfl
    · subst hr
      cases hvt
  
/-- C10 witness: a one-task list whose node id is not dummy_node_id. -/
theorem C10_dummy_node_skip_witness :
    validate_workflow_status [⟨"n1", "Node X", "PENDING"⟩] "dummy_node_id"
      = create_skipped ValidationType.workflow_status :=
  (C10_dummy_node_skip [] [⟨"n1", "Node X", "PENDING"⟩] (by decide)).1

/-! ## Claim C5 -/

/-- The two sides the payment rule compares: the expenditure amount of
the accounting-payment group, and the remaining-payment field when
present, else the payment field. -/
def payment_sides (form_data : List FormField) : PyVal × FieldValue :=
  ( extract_field_from_fieldlist form_data FFN_ACCOUNTING_PAYMENT_INFO
      FFN_EXPENDITURE_AMOUNT
  , if extract_field_value form_data FFN_REMAINING_PAYMENT_AMOUNT
        ≠ FieldValue.scalar PyVal.none then
      extract_field_value form_data FFN_REMAINING_PAYMENT_AMOUNT
    else extract_field_value form_data FFN_PAYMENT_AMOUNT )

/-- Accountant expenditure 100.01 against remaining payment 100.00: the
absolute difference is exactly 0.01. -/
def c5PayForm : List FormField :=
  [ ⟨FFN_ACCOUNTING_PAYMENT_INFO, "fieldList",
      FieldValue.rows [[⟨FFN_EXPENDITURE_AMOUNT, PyVal.num (10001 / 100)⟩]]⟩
  , ⟨FFN_REMAINING_PAYMENT_AMOUNT, "amount", FieldValue.scalar (PyVal.num 100)⟩ ]

/-- A round-1 submitter amount facing an accountant row whose
expenditure value is None. -/
def c5AdvForm : List FormField :=
  [ ⟨FFN_ACCOUNTING_ADVANCE_INFO, "fieldList",
      FieldValue.rows [[⟨FFN_EXPENDITURE_AMOUNT, PyVal.none⟩]]⟩
  , ⟨"Số tiền tạm ứng lần 1:", "amount", FieldValue.scalar (PyVal.num 100)⟩ ]

/-- C5 counterexample: two present amounts whose absolute difference is
exactly 0.01 are judged INVALID by the payment rule, not VALID; and in
the advance rule a present submitter amount facing an accountant row
whose value is absent (None) produces an INVALID result, not a SKIPPED
one. -/
theorem C5_counterexample :
    validate_payment_amount_mismatch c5PayForm
      = create_invalid ValidationType.payment_amount_mismatch
    ∧ |(10001 / 100 : ℚ) - 100| = 1 / 100
    ∧ extract_all_values_from_fieldlist c5AdvForm FFN_ACCOUNTING_ADVANCE_INFO
        FFN_EXPENDITURE_AMOUNT = [PyVal.none]
    ∧ validate_advance_amount_mismatch c5AdvForm
      = [create_invalid ValidationType.advance_amount_mismatch] := by
  refine ⟨?_, ?_, by decide, by decide⟩
  · have hp : extract_field_from_fieldlist c5PayForm FFN_ACCOUNTING_PAYMENT_INFO
        FFN_EXPENDITURE_AMOUNT = PyVal.num (10001 / 100) := rfl
    have hd : extract_field_value c5PayForm FFN_REMAINING_PAYMENT_AMOUNT
        = FieldValue.scalar (PyVal.num 100) := rfl
    simp only [validate_payment_amount_mismatch, hp, hd]
    rw [if_pos (show FieldValue.scalar (PyVal.num 100)
        ≠ FieldValue.scalar PyVal.none by simp)]
    rw [if_neg (by simp)]
    simp only [pyValFloat, fieldFloat]
    rw [if_neg (by rw [ratAbs_eq_abs, abs_of_pos (by norm_num)]; norm_num)]
  · rw [abs_of_pos (by norm_num)]
    norm_num

/-- A round whose appended result list is nonempty had a present
submitter value, so it contributes found_data = true. -/
theorem arc_found (form_data : List FormField) (exps : List PyVal) (i : ℕ)
    (hne : (advance_round_check form_data exps i).1 ≠ []) :
    (advance_round_check form_data exps i).2 = true := by
  simp only [advance_round_check] at hne ⊢
  split at hne
  · exact absurd rfl hne
  · next hguard =>
    rw [if_neg hguard]
    push_neg at hguard
    split
    · split
      · simp [hguard.2]
      · simp [hguard.2]
    · simp [hguard.2]

/-- C5 (amended): in the payment rule, an absent side (the accounting
expenditure or the compare field) gives SKIPPED; two parsed amounts give
VALID when their absolute difference is strictly below 0.01 and INVALID
when it is 0.01 or more — a difference of exactly 0.01 is INVALID, not
VALID. In the advance rule, an absent submitter value or a missing
accountant row makes the round contribute nothing, two parsed amounts
contribute nothing below 0.01 difference and one INVALID result at 0.01
or more, and a present submitter value whose counterpart row value fails
float() — None included — contributes an INVALID result; the rule output
contains an INVALID result exactly when some round contributes one. -/
theorem C5_tolerance_boundary :
    (∀ form_data : List FormField,
      ((payment_sides form_data).1 = PyVal.none
          ∨ (payment_sides form_data).2 = FieldValue.scalar PyVal.none →
        validate_payment_amount_mismatch form_data
          = create_skipped ValidationType.payment_amount_mismatch)
      ∧ ∀ qp qc : ℚ,
          pyValFloat (payment_sides form_data).1 = some qp →
          fieldFloat (payment_sides form_data).2 = some qc →
          (|qp - qc| < 1 / 100 →
            validate_payment_amount_mismatch form_data
              = create_valid ValidationType.payment_amount_mismatch)
          ∧ (|qp - qc| ≥ 1 / 100 →
            validate_payment_amount_mismatch form_data
              = create_invalid ValidationType.payment_amount_mismatch))
    ∧ (∀ (form_data : List FormField) (exps : List PyVal) (i : ℕ),
        ((extract_field_value form_data (advance_field_name i)
              = FieldValue.scalar PyVal.none
            ∨ exps.length ≤ i - 1) →
          (advance_round_check form_data exps i).1 = [])
        ∧ (∀ qu qa : ℚ, ¬ exps.length ≤ i - 1 →
            fieldFloat (extract_field_value form_data (advance_field_name i))
              = some qu →
            pyValFloat (exps.getD (i - 1) PyVal.none) = some qa →
            (|qu - qa| < 1 / 100 → (advance_round_check form_data exps i).1 = [])
            ∧ (|qu - qa| ≥ 1 / 100 →
                (advance_round_check form_data exps i).1
                  = [create_invalid ValidationType.advance_amount_mismatch]))
        ∧ (¬ exps.length ≤ i - 1 →
            extract_field_value form_data (advance_field_name i)
              ≠ FieldValue.scalar PyVal.none →
            (fieldFloat (extract_field_value form_data (advance_field_name i))
                = Option.none
              ∨ pyValFloat (exps.getD (i - 1) PyVal.none) = Option.none) →
            (advance_round_check form_data exps i).1
              = [create_invalid ValidationType.advance_amount_mismatch]))
    ∧ (∀ form_data : List FormField,
        (∃ r ∈ validate_advance_amount_mismatch form_data,
            r.status = ValidationStatus.invalid)
        ↔ ∃ i ∈ ([1, 2, 3, 4] : List ℕ),
            (advance_round_check form_data
              (extract_all_values_from_fieldlist form_data
                FFN_ACCOUNTING_ADVANCE_INFO FFN_EXPENDITURE_AMOUNT) i).1 ≠ []) := by
  refine ⟨fun form_data => ⟨?_, ?_⟩, fun form_data exps i => ⟨?_, ?_, ?_⟩, ?_⟩
  · intro h
    simp only [payment_sides] at h
    simp only [validate_payment_amount_mismatch]
    rw [if_pos h]
  · intro qp qc hqp hqc
    have hcond : ¬((payment_sides form_data).1 = PyVal.none
        ∨ (payment_sides form_data).2 = FieldValue.scalar PyVal.none) := by
      rintro (h | h)
      · rw [h] at hqp
        simp [pyValFloat] at hqp
      · rw [h] at hqc
        simp [fieldFloat, pyValFloat] at hqc
    simp only [payment_sides] at hcond hqp hqc
    simp only [validate_payment_amount_mismatch]
    rw [if_neg hcond, hqp, hqc]
    dsimp only
    constructor
    · intro hlt
      rw [if_pos (by rw [ratAbs_eq_abs]; exact hlt)]
    · intro hge
      rw [if_neg (by rw [ratAbs_eq_abs]; exact not_lt.mpr hge)]
  · intro h
    simp only [advance_round_check]
    rw [if_pos h.symm]
  · intro qu qa hlen hqu hqa
    have huser : extract_field_value form_data (advance_field_name i)
        ≠ FieldValue.scalar PyVal.none := by
      intro he
      rw [he] at hqu
      simp [fieldFloat, pyValFloat] at hqu
    simp only [advance_round_check]
    rw [if_neg (by rintro (h | h); exact hlen h; exact huser h), hqu, hqa]
    dsimp only
    constructor
    · intro hlt
      rw [if_neg (by rw [ratAbs_eq_abs]; exact not_le.mpr hlt)]
    · intro hge
      rw [if_pos (by rw [ratAbs_eq_abs]; exact hge)]
  · intro hlen huser h
    simp only [advance_round_check]
    rw [if_neg (by rintro (h2 | h2); exact hlen h2; exact huser h2)]
    rcases h with h | h
    · rw [h]
    · rcases hfu : fieldFloat (extract_field_value form_data (advance_field_name i))
        with _ | qu
      · rfl
      · rw [h]
  · intro form_data
    constructor
    · rintro ⟨r, hr, hst⟩
      simp only [validate_advance_amount_mismatch] at hr
      have hmain : r ∈ (([1, 2, 3, 4].map (advance_round_check form_data
          (extract_all_values_from_fieldlist form_data FFN_ACCOUNTING_ADVANCE_INFO
            FFN_EXPENDITURE_AMOUNT))).map Prod.fst).flatten →
          ∃ i ∈ ([1, 2, 3, 4] : List ℕ),
            (advance_round_check form_data
              (extract_all_values_from_fieldlist form_data
                FFN_ACCOUNTING_ADVANCE_INFO FFN_EXPENDITURE_AMOUNT) i).1 ≠ [] := by
        intro hfl
        rw [List.mem_flatten] at hfl
        obtain ⟨l, hl, hrl⟩ := hfl
        rw [List.mem_map] at hl
        obtain ⟨p, hp, rfl⟩ := hl
        rw [List.mem_map] at hp
        obtain ⟨i, hi, rfl⟩ := hp
        exact ⟨i, hi, List.ne_nil_of_mem hrl⟩
      split at hr
      · rw [List.mem_append] at hr
        rcases hr with hr | hr
        · revert hr
          split
          · intro hr
            rw [List.mem_singleton] at hr
            subst hr
            cases hst
          · intro hr
            exact hmain hr
        · rw [List.mem_singleton] at hr
          subst hr
          cases hst
      · revert hr
        split
        · intro hr
          rw [List.mem_singleton] at hr
          subst hr
          cases hst
        · intro hr
          exact hmain hr
    · rintro ⟨i, hi, hne⟩
      obtain ⟨r, hr⟩ := List.exists_mem_of_ne_nil _ hne
      have hrinv := advance_round_mem _ _ _ r hr
      have hfound := arc_found _ _ _ hne
      set exps := extract_all_values_from_fieldlist form_data
        FFN_ACCOUNTING_ADVANCE_INFO FFN_EXPENDITURE_AMOUNT with hexps
      have hflat : r ∈ (([1, 2, 3, 4].map (advance_round_check form_data exps)).map
          Prod.fst).flatten := by
        rw [List.mem_flatten]
        exact ⟨(advance_round_check form_data exps i).1,
          List.mem_map.mpr ⟨advance_round_check form_data exps i,
            List.mem_map.mpr ⟨i, hi, rfl⟩, rfl⟩, hr⟩
      have hany : ([1, 2, 3, 4].map (advance_round_check form_data exps)).any
          Prod.snd = true :=
        List.any_eq_true.mpr ⟨advance_round_check form_data exps i,
          List.mem_map.mpr ⟨i, hi, rfl⟩, hfound⟩
      have hnonempty : (([1, 2, 3, 4].map (advance_round_check form_data exps)).map
          Prod.fst).flatten ≠ [] := List.ne_nil_of_mem hflat
      have hempty : ((([1, 2, 3, 4].map (advance_round_check form_data exps)).map
          Prod.fst).flatten).isEmpty = false := by
        rcases he : ((([1, 2, 3, 4].map (advance_round_check form_data exps)).map
            Prod.fst).flatten).isEmpty with _ | _
        · rfl
        · exact absurd (List.isEmpty_iff.mp he) hnonempty
      refine ⟨r, ?_, by rw [hrinv]; rfl⟩
      simp only [validate_advance_amount_mismatch, ← hexps, hany, hempty]
      simpa using hflat

/-- A 0.02 difference: accounting expenditure 100.02 against remaining
payment 100.00. -/
def c5wForm : List FormField :=
  [ ⟨FFN_ACCOUNTING_PAYMENT_INFO, "fieldList",
      FieldValue.rows [[⟨FFN_EXPENDITURE_AMOUNT, PyVal.num (10002 / 100)⟩]]⟩
  , ⟨FFN_REMAINING_PAYMENT_AMOUNT, "amount", FieldValue.scalar (PyVal.num 100)⟩ ]

/-- C5 witness: amounts differing by 0.02 are INVALID, by the amended
theorem applied at a concrete form. -/
theorem C5_tolerance_boundary_witness :
    validate_payment_amount_mismatch c5wForm
      = create_invalid ValidationType.payment_amount_mismatch :=
  (((C5_tolerance_boundary.1 c5wForm).2 (10002 / 100) 100 rfl rfl).2
    (by rw [abs_of_pos (by norm_num)]; norm_num))

/-! ## Claim C6 -/

/-- C6: publish returns an empty outcome list when no handler is
registered for the event type; otherwise exactly one outcome per
registered handler, in subscription order (subscribe appends to the
list for its type); a handler that raises yields a failed outcome
carrying the error, and each outcome is determined by its own handler
alone, so one handler's failure cannot affect the others. -/
theorem C6_publish_isolation {α β : Type} (bus : EventBus α β)
    (event_type : String) (event_data : α) (now : ℤ) :
    (dictGet bus.handlers event_type = Option.none →
      (publish bus event_type event_data now).1 = [])
    ∧ (∀ hs, dictGet bus.handlers event_type = some hs →
        (publish bus event_type event_data now).1
          = hs.map (fun h => run_handler_safe h event_data))
    ∧ (∀ (h : Handler α β) (e : String), h.run event_data = Except.error e →
        run_handler_safe h event_data
          = ⟨h.name, false, Option.none, some e⟩)
    ∧ (∀ (h : Handler α β) (r : β), h.run event_data = Except.ok r →
        run_handler_safe h event_data = ⟨h.name, true, some r, Option.none⟩)
    ∧ (∀ handler : Handler α β,
        dictGet (subscribe bus event_type handler).handlers event_type
          = some ((dictGet bus.handlers event_type).getD [] ++ [handler])) := by
  refine ⟨?_, ?_, ?_, ?_, ?_⟩
  · intro h
    simp only [publish, h]
  · intro hs h
    simp only [publish, h]
  · intro h e he
    simp only [run_handler_safe, he]
  · intro h r hr
    simp only [run_handler_safe, hr]
  · intro handler
    simp only [subscribe]
    exact dictGet_dictPush_self bus.handlers event_type handler

/-- A bus with one failing and one succeeding handler for the same type. -/
def c6Bus : EventBus Unit Unit :=
  ⟨[("approval.instance.updated",
      [ ⟨"bad_handler", fun _ => Except.error "boom"⟩
      , ⟨"good_handler", fun _ => Except.ok ()⟩ ])], []⟩

/-- C6 witness: publishing to the two-handler bus returns one failed and
one succeeded outcome, in subscription order. -/
theorem C6_publish_isolation_witness :
    (publish c6Bus "approval.instance.updated" () 0).1
      = [ ⟨"bad_handler", false, Option.none, some "boom"⟩
        , ⟨"good_handler", true, some (), Option.none⟩ ] := by
  rw [(C6_publish_isolation c6Bus "approval.instance.updated" () 0).2.1
    [ ⟨"bad_handler", fun _ => Except.error "boom"⟩
    , ⟨"good_handler", fun _ => Except.ok ()⟩ ] rfl]
  rfl

/-! ## Claim C7 -/

theorem pubIter_length (n : ℕ) : (pubIter n).event_history.length = n := by
  induction n with
  | zero => rfl
  | succ k ih =>
    simp only [pubIter, publish]
    split
    · simp [ih]
    · simp [ih]

/-- C7 counterexample: no fixed bound N caps the stored event history;
after n publishes the history holds n records, so every candidate bound
is exceeded. -/
theorem C7_counterexample :
    ¬ ∃ N : ℕ, ∀ n : ℕ, (pubIter n).event_history.length ≤ N := by
  rintro ⟨N, h⟩
  have := h (N + 1)
  rw [pubIter_length] at this
  omega

/-- C7 (amended): the stored event history is append-only and unbounded:
every publish appends exactly one record and never drops one, so after n
publishes the history holds n records. Only the retrieval view is
bounded: for limit > 0, get_event_history returns the at most limit most
recent records. -/
theorem C7_history_append_only {α β : Type} (bus : EventBus α β)
    (event_type : String) (event_data : α) (now : ℤ) :
    (∃ rec : EventRecord α,
        (publish bus event_type event_data now).2.event_history
          = bus.event_history ++ [rec])
    ∧ (∀ n : ℕ, (pubIter n).event_history.length = n)
    ∧ (∀ limit : ℕ, limit ≠ 0 →
        (get_event_history bus limit).length ≤ limit
        ∧ get_event_history bus limit
            = bus.event_history.drop (bus.event_history.length - limit)) := by
  refine ⟨?_, pubIter_length, ?_⟩
  · refine ⟨⟨now, event_type, event_data,
      ((dictGet bus.handlers event_type).getD []).length⟩, ?_⟩
    simp only [publish]
    split
    · rfl
    · rfl
  · intro limit hlim
    constructor
    · simp only [get_event_history, if_neg hlim]
      rw [List.length_drop]
      omega
    · simp only [get_event_history, if_neg hlim]

/-- C7 witness: on the bus after three publishes, asking for the two most
recent records returns at most two. -/
theorem C7_history_append_only_witness :
    (get_event_history (pubIter 3) 2).length ≤ 2 :=
  ((C7_history_append_only (pubIter 3) "approval.instance.updated" () 0).2.2
    2 (by decide)).1

/-! ## Claim C3 -/

/-- C3: in process_approval_with_qr_comment, the dedup cache entry is
marked if and only if the image upload was attempted and succeeded; when
the upload is attempted and fails, the call returns failure and marks
nothing (and any earlier failure or skip performs no upload and marks
nothing); after a successful upload the trace is exactly upload, then
mark, then comment post, the marked entry carries the call time, and a
failed comment post makes the call return failure while the cache entry
remains marked. -/
theorem C3_mark_between_upload_and_comment (env : ProcEnv)
    (instance_code : String) (cache : CacheMap) (r : ProcResult)
    (hr : r = process_approval_with_qr_comment env instance_code cache) :
    ((∃ k, ExtAction.markCache k ∈ r.actions) ↔
      (ExtAction.upload ∈ r.actions ∧ env.upload_ok = true))
    ∧ (ExtAction.upload ∈ r.actions → env.upload_ok = false →
        r.success = false ∧ ∀ k, ExtAction.markCache k ∉ r.actions)
    ∧ (ExtAction.postComment ∈ r.actions →
        ∃ k, r.actions = [ExtAction.upload, ExtAction.markCache k,
            ExtAction.postComment]
          ∧ dictGet r.cache k = some env.now
          ∧ (env.comment_ok = false → r.success = false)) := by
  subst hr
  rcases env with ⟨wc, api, now, qr_ok, upload_ok, comment_ok⟩
  rcases wc with _ | wc
  · simp only [process_approval_with_qr_comment]
    exact ⟨by simp, by simp, by simp⟩
  rcases api with _ | ⟨task_list, form⟩
  · simp only [process_approval_with_qr_comment]
    exact ⟨by simp, by simp, by simp⟩
  rcases form with _ | form
  · simp only [process_approval_with_qr_comment]
    exact ⟨by simp, by simp, by simp⟩
  simp only [process_approval_with_qr_comment]
  cases hfa : find_active_qr_trigger task_list form wc.qr_trigger_nodes with
  | none => exact ⟨by simp, by simp, by simp⟩
  | some trig =>
    refine ⟨?_, ?_, ?_⟩ <;>
    · repeat' split
      all_goals simp_all [mark_qr_as_generated, dictGet_dictSet_self]

/-- A trigger configuration for one Cashier round. -/
def c3Cfg : TriggerConfig :=
  { node_name_contains := "Cashier"
  , status := "PENDING"
  , yes_no_field_template := fun i => "Pay round " ++ toString i
  , amount_field_template := fun i => "Amount round " ++ toString i
  , qr_type := "advance" }

def c3Form : List FormField :=
  [ ⟨"Pay round 1", "radio", FieldValue.scalar (PyVal.str "Yes")⟩
  , ⟨"Amount round 1", "amount", FieldValue.scalar (PyVal.num 500000)⟩
  , ⟨"Ngân hàng", "text", FieldValue.scalar (PyVal.str "MB")⟩
  , ⟨"Số tài khoản ngân hàng", "text", FieldValue.scalar (PyVal.str "123")⟩
  , ⟨"Tên người thụ hưởng", "text", FieldValue.scalar (PyVal.str "Nguyen Van A")⟩ ]

/-- An environment whose upload succeeds and whose comment post fails. -/
def c3Env : ProcEnv :=
  { workflow_config := some
      { name := "W1"
      , qr_trigger_nodes := [c3Cfg]
      , field_mappings :=
          { bank_name := some "Ngân hàng"
          , account_number := some "Số tài khoản ngân hàng"
          , beneficiary_name := some "Tên người thụ hưởng" } }
  , api_response := some ⟨[⟨"node12345", "Cashier A", "PENDING"⟩], some c3Form⟩
  , now := 0
  , qr_ok := true
  , upload_ok := true
  , comment_ok := false }

/-- C3 witness: with the comment post failing after a successful upload,
the call fails while the cache entry stays marked, and the mark sits
between the upload and the comment post in the trace. -/
theorem C3_mark_between_upload_and_comment_witness :
    ∃ k, (process_approval_with_qr_comment c3Env "I1" []).actions
        = [ExtAction.upload, ExtAction.markCache k, ExtAction.postComment]
      ∧ dictGet (process_approval_with_qr_comment c3Env "I1" []).cache k
          = some c3Env.now
      ∧ (c3Env.comment_ok = false →
          (process_approval_with_qr_comment c3Env "I1" []).success = false) :=
  (C3_mark_between_upload_and_comment c3Env "I1" [] _ rfl).2.2 (by decide)

/-! ## Claim C1 -/

theorem dictPush_not_mem {γ : Type} (acc : List (String × List γ)) (k : String) (x : γ)
    (h : k ∉ acc.map Prod.fst) : dictPush acc k x = acc ++ [(k, [x])] := by
  induction acc with
  | nil => rfl
  | cons p rest ih =>
    obtain ⟨k1, v1⟩ := p
    simp only [List.map_cons, List.mem_cons] at h
    push_neg at h
    simp only [dictPush, if_neg (Ne.symm h.1), List.cons_append]
    rw [ih h.2]

theorem dictPush_mem_update {γ : Type} (acc : List (String × List γ)) (k : String) (x : γ)
    (hmem : k ∈ acc.map Prod.fst) (hnd : (acc.map Prod.fst).Nodup) :
    dictPush acc k x = acc.map (fun p => if p.1 = k then (p.1, p.2 ++ [x]) else p) := by
  induction acc with
  | nil => simp at hmem
  | cons p rest ih =>
    obtain ⟨k1, v1⟩ := p
    simp only [List.map_cons, List.nodup_cons] at hnd
    simp only [List.map_cons, List.mem_cons] at hmem
    by_cases hk : k1 = k
    · subst hk
      simp only [dictPush, List.map_cons, if_true]
      congr 1
      have hrest : ∀ p ∈ rest, (if Prod.fst p = k1 then (p.1, p.2 ++ [x]) else p) = p := by
        intro p hp
        rw [if_neg]
        intro he
        exact hnd.1 (he ▸ List.mem_map_of_mem Prod.fst hp)
      exact ((List.map_congr_left hrest).trans (List.map_id rest)).symm
    · rcases hmem with he | hmem2
      · exact absurd he.symm hk
      · simp only [dictPush, if_neg hk, List.map_cons, if_neg hk]
        rw [ih hmem2 hnd.2]

theorem mem_newNames_not_seen :
    ∀ (ts : List TaskSnapshot) (seen : List String) (n : String),
      n ∈ newNames seen ts → n ∉ seen := by
  intro ts
  induction ts with
  | nil => intro seen n h; simp [newNames] at h
  | cons t rest ih =>
    intro seen n h
    simp only [newNames] at h
    split at h
    · exact ih seen n h
    · next hts =>
      rcases List.mem_cons.mp h with rfl | h2
      · exact hts
      · have := ih _ _ h2
        intro hn
        exact this (List.mem_cons_of_mem _ hn)

theorem newNames_congr :
    ∀ (ts : List TaskSnapshot) (s1 s2 : List String),
      (∀ x, x ∈ s1 ↔ x ∈ s2) → newNames s1 ts = newNames s2 ts := by
  intro ts
  induction ts with
  | nil => intro s1 s2 _; rfl
  | cons t rest ih =>
    intro s1 s2 hiff
    simp only [newNames]
    by_cases hm : t.node_name ∈ s1
    · rw [if_pos hm, if_pos ((hiff _).mp hm), ih s1 s2 hiff]
    · rw [if_neg hm, if_neg (fun h2 => hm ((hiff _).mpr h2))]
      congr 1
      apply ih
      intro x
      simp only [List.mem_cons]
      constructor
      · rintro (rfl | hx)
        · exact Or.inl rfl
        · exact Or.inr ((hiff x).mp hx)
      · rintro (rfl | hx)
        · exact Or.inl rfl
        · exact Or.inr ((hiff x).mpr hx)

/-- The dict fold that builds nodes_by_name, started from any
duplicate-free accumulator: existing groups are extended with their
matching tasks, and a new group appears at the end, in first-occurrence
order, for each name not yet present. -/
theorem groupFold_eq :
    ∀ (ts : List TaskSnapshot) (acc : List (String × List TaskSnapshot)),
      ((acc.map Prod.fst).Nodup) →
      List.foldl (fun a t => dictPush a t.node_name t) acc ts =
        acc.map (fun p => (p.1, p.2 ++ ts.filter (fun t => t.node_name = p.1)))
        ++ (newNames (acc.map Prod.fst) ts).map
             (fun n => (n, ts.filter (fun t => t.node_name = n))) := by
  intro ts
  induction ts with
  | nil =>
    intro acc _
    simp [newNames, List.filter]
  | cons t rest ih =>
    intro acc hnd
    simp only [List.foldl_cons]
    by_cases hmem : t.node_name ∈ acc.map Prod.fst
    · rw [dictPush_mem_update acc _ _ hmem hnd]
      have hkeys : (acc.map (fun p =>
          if p.1 = t.node_name then (p.1, p.2 ++ [t]) else p)).map Prod.fst
          = acc.map Prod.fst := by
        rw [List.map_map]
        apply List.map_congr_left
        intro p _
        by_cases h : p.1 = t.node_name <;> simp [h]
      rw [ih _ (by rw [hkeys]; exact hnd)]
      rw [hkeys]
      congr 1
      · rw [List.map_map]
        apply List.map_congr_left
        intro p _
        by_cases h : p.1 = t.node_name
        · simp only [Function.comp_apply, if_pos h, List.filter_cons]
          rw [if_pos (by simp [h])]
          simp [List.append_assoc]
        · simp only [Function.comp_apply, if_neg h, List.filter_cons]
          rw [if_neg (by simp; exact fun he => h he.symm)]
      · rw [show newNames (acc.map Prod.fst) (t :: rest)
            = newNames (acc.map Prod.fst) rest by
          simp only [newNames, if_pos hmem]]
        apply List.map_congr_left
        intro n hn
        have hne : n ≠ t.node_name := by
          intro he
          exact (mem_newNames_not_seen rest _ n hn) (he ▸ hmem)
        simp only [List.filter_cons]
        rw [if_neg (by simp; exact fun he => hne he.symm)]
    · rw [dictPush_not_mem acc _ _ hmem]
      have hkeys : ((acc ++ [(t.node_name, [t])]).map Prod.fst)
          = acc.map Prod.fst ++ [t.node_name] := by
        simp
      have hnd' : (((acc ++ [(t.node_name, [t])]).map Prod.fst)).Nodup := by
        rw [hkeys]
        simp [List.Nodup.append hnd (List.nodup_singleton _), hmem]
      rw [ih _ hnd', hkeys]
      rw [show newNames (acc.map Prod.fst) (t :: rest)
          = t.node_name :: newNames (t.node_name :: acc.map Prod.fst) rest by
        simp only [newNames, if_neg hmem]]
      simp only [List.map_append, List.map_cons, List.map_nil, List.append_assoc,
        List.nil_append, List.singleton_append]
      congr 1
      · apply List.map_congr_left
        intro p hp
        have hne : p.1 ≠ t.node_name := by
          intro he
          exact hmem (he ▸ List.mem_map_of_mem Prod.fst hp)
        simp only [List.filter_cons]
        rw [if_neg (by simp; exact fun he => hne he.symm)]
      · congr 1
        · simp only [List.filter_cons]
          rw [if_pos (by simp)]
        · rw [newNames_congr rest (acc.map Prod.fst ++ [t.node_name])
              (t.node_name :: acc.map Prod.fst)
              (by intro x; simp [List.mem_append, List.mem_cons, or_comm])]
          apply List.map_congr_left
          intro n hn
          have hne : n ≠ t.node_name := by
            intro he
            exact (mem_newNames_not_seen rest _ n hn) (by simp [he])
          simp only [List.filter_cons]
          rw [if_neg (by simp; exact fun he => hne he.symm)]

/-- nodes_by_name holds one group per distinct node name, keyed in
first-occurrence order, each group carrying that name's tasks in
task-list order. -/
theorem groupByName_eq (task_list : List TaskSnapshot) :
    groupByName task_list
      = (firstOccNames task_list).map
          (fun n => (n, task_list.filter (fun t => t.node_name = n))) := by
  unfold groupByName firstOccNames
  have h := groupFold_eq task_list [] (by simp)
  simpa using h

theorem matchingNodes_map (sub : String) (names : List String)
    (g : String → List TaskSnapshot) :
    matchingNodes sub (names.map (fun n => (n, g n)))
      = (names.filter (fun n => strContainsSub sub n)).flatMap g := by
  induction names with
  | nil => rfl
  | cons n rest ih =>
    simp only [List.map_cons, matchingNodes, List.filter_cons]
    by_cases h : strContainsSub sub n
    · simp [h, ih]
    · simp [h, ih]

/-- The task sequence the source scans for one trigger spec is exactly
the grouped-by-name order. -/
theorem matching_eq (sub : String) (task_list : List TaskSnapshot) :
    matchingNodes sub (groupByName task_list)
      = groupedMatchingTasks sub task_list := by
  rw [groupByName_eq, matchingNodes_map]
  rfl

/-- The counting loop of the source equals the enumFrom-based search of
the specification text over the same task sequence. -/
theorem scanRounds_eq_enum (form_data : List FormField) (cfg : TriggerConfig) :
    ∀ (l : List TaskSnapshot) (i : ℕ),
      scanRounds form_data cfg i l
        = (l.enumFrom i).findSome? (roundTrigger form_data cfg) := by
  intro l
  induction l with
  | nil => intro i; rfl
  | cons node rest ih =>
    intro i
    by_cases hs : node.status = cfg.status
    · by_cases hy : extract_field_value form_data (cfg.yes_no_field_template i)
          = FieldValue.scalar (PyVal.str "Yes")
      · simp [scanRounds, hs, hy, roundTrigger, List.enumFrom, List.findSome?_cons]
      · simp [scanRounds, hs, hy, roundTrigger, List.enumFrom, List.findSome?_cons, ih]
    · simp [scanRounds, hs, roundTrigger, List.enumFrom, List.findSome?_cons, ih]

/-- C1 (amended): the trigger resolver examines specs in declaration
order; within a spec the matching tasks are enumerated grouped by exact
node name — groups in order of first occurrence in the task list, tasks
within a group in task-list order — not in plain task-list order, and
the 1-based round index i counts positions in that grouped order; the
first round in that order whose task has the required status and whose
instantiated yes/no field resolves to "Yes" is returned with its
resolved amount and roundIndex i, non-qualifying rounds are skipped
without stopping the scan, and at most one trigger — none if no round
qualifies — is returned per call. -/
theorem C1_trigger_order (task_list : List TaskSnapshot)
    (form_data : List FormField) (qr_trigger_configs : List TriggerConfig) :
    find_active_qr_trigger task_list form_data qr_trigger_configs
      = find_active_trigger_grouped task_list form_data qr_trigger_configs := by
  unfold find_active_qr_trigger find_active_trigger_grouped
  induction qr_trigger_configs with
  | nil => rfl
  | cons cfg rest ih =>
    simp only [findOverConfigs, List.findSome?_cons]
    rw [matching_eq cfg.node_name_contains task_list,
      scanRounds_eq_enum form_data cfg]
    cases (List.enumFrom 1
        (groupedMatchingTasks cfg.node_name_contains task_list)).findSome?
        (roundTrigger form_data cfg) with
    | some t => rfl
    | none => exact ih

/-- Tasks for the counterexample: two tasks named Cash A flank one named
Cash B, all PENDING, all names containing the configured substring. -/
def c1Tasks : List TaskSnapshot :=
  [ ⟨"n1", "Cash A", "PENDING"⟩
  , ⟨"n2", "Cash B", "PENDING"⟩
  , ⟨"n3", "Cash A", "PENDING"⟩ ]

def c1Cfg : TriggerConfig :=
  { node_name_contains := "Cash"
  , status := "PENDING"
  , yes_no_field_template := fun i => "Y" ++ toString i
  , amount_field_template := fun i => "A" ++ toString i
  , qr_type := "advance" }

/-- Only round 2 is confirmed. -/
def c1Form : List FormField :=
  [ ⟨"Y2", "radio", FieldValue.scalar (PyVal.str "Yes")⟩
  , ⟨"A2", "amount", FieldValue.scalar (PyVal.str "200")⟩ ]

/-- C1 counterexample: under the claimed plain task-list order, round 2
is task n2 (Cash B), but the source groups tasks by exact name first, so
its round 2 is n3 (the second Cash A) and the resolver returns n3, not
n2 — the enumeration is not task-list order. -/
theorem C1_counterexample :
    (find_active_qr_trigger c1Tasks c1Form [c1Cfg]).map ActiveTrigger.node_id
      = some "n3"
    ∧ (find_active_trigger_claim_order c1Tasks c1Form [c1Cfg]).map
        ActiveTrigger.node_id = some "n2"
    ∧ find_active_qr_trigger c1Tasks c1Form [c1Cfg]
      ≠ find_active_trigger_claim_order c1Tasks c1Form [c1Cfg] := by
  refine ⟨rfl, rfl, by decide⟩
